import Mathlib

/-!
# Verification of the Drono command orchestration and state-broadcast subsystem

Shallow embedding of the core of the repository:

* `server/core/command_executor.py` — `execute_command_with_retries`,
  `_execute_with_timeout`, the per-command-type timeout table;
* `server/core/command_queue.py` — `CommandQueue` over `asyncio.PriorityQueue`
  (CPython `heapq` on `(-priority, command)` tuples);
* `server/core/device_manager.py` — `scan_devices` reconciliation;
* `core/alerting.py` — `AlertManager` (`add_alert_handler`, `_process_alerts`,
  `get_alert_history`);
* `core/websocket_manager.py` — `_process_broadcasts`.

Python `await`-ed calls into the external automation channel are modelled by
outcome oracles (a function giving, for each call, the value returned or the
exception raised); everything else is translated directly.
-/

set_option maxHeartbeats 1000000

namespace Drono

/-- A value occurring in an `Alert`'s `details` map: the source stores strings,
the raw `parameters` dict, and integers there. -/
inductive DetailValue where
  | str (s : String)
  | params (kvs : List (String × String))
  | nat (n : Nat)
deriving DecidableEq

/-- `models.database_models.Command` as used by the queue/executor core:
`id`, `device_id`, `type`, `parameters`, `priority`, mutable `status`,
`error`.  (Timestamps are irrelevant to every claim and omitted.) -/
structure Command where
  id : String
  device_id : String
  type : String
  parameters : List (String × String) := []
  priority : Int := 0
  status : String := "pending"
  error : Option String := none
deriving DecidableEq

/-- An alert as handed to `alert_manager.send_alert(type, message, device_id, details)`. -/
structure Alert where
  level : String
  message : String
  device_id : Option String
  details : List (String × DetailValue)
deriving DecidableEq

/-- `CommandExecutor.command_timeouts.get(command_type, 60)`:
start=300, stop=60, pause=30, resume=30, status=10, default 60. -/
def commandTimeout (ctype : String) : Nat :=
  if ctype = "start" then 300
  else if ctype = "stop" then 60
  else if ctype = "pause" then 30
  else if ctype = "resume" then 30
  else if ctype = "status" then 10
  else 60

/-- Outcome of one automation-channel sub-operation (the body of one of the
`_execute_*_command` helpers before its `except` clause): either it returns a
success boolean, or it raises. -/
inductive StepOutcome where
  | ok (b : Bool)
  | raises (msg : String)
deriving DecidableEq

/-- Body of one `_execute_*_command` helper: each wraps its automation-channel
operation in `try ... except Exception: return False`, so a raised exception
becomes `False`. -/
def executeSingleStep (step : StepOutcome) : Bool :=
  match step with
  | .ok b => b
  | .raises _ => false

/-- `CommandExecutor._execute_with_timeout(command, timeout)`: dispatches on
`command.type` to the per-type helper (`start`/`stop`/`pause`/`resume`/`status`),
returns `False` for an unknown type, and converts any escaping exception to
`False`.  The `timeout` argument is received but never read in the body.
`step` gives the outcome of the dispatched helper's automation-channel
operation. -/
def execute_with_timeout (c : Command) (timeout : Nat) (step : String → StepOutcome) : Bool :=
  if c.type = "start" then executeSingleStep (step "start")
  else if c.type = "stop" then executeSingleStep (step "stop")
  else if c.type = "pause" then executeSingleStep (step "pause")
  else if c.type = "resume" then executeSingleStep (step "resume")
  else if c.type = "status" then executeSingleStep (step "status")
  else false

/-- What `await self._execute_with_timeout(command, timeout)` does on one
attempt, as observed by the `try` block of `execute_command_with_retries`:
it returns a boolean, raises `asyncio.TimeoutError`, or raises another
exception. -/
inductive AttemptResult where
  | returns (b : Bool)
  | raisesTimeout
  | raisesExc (msg : String)
deriving DecidableEq

/-- The observable outcome of `execute_command_with_retries`: the returned
value (`none` models Python falling off the loop and returning `None`, which
never happens), the number of attempts performed, the number of 5-second
backoff sleeps, and the alerts sent via `alert_manager.send_alert` in order. -/
structure RetryOutcome where
  result : Option Bool
  attemptsUsed : Nat
  sleeps : Nat
  alerts : List Alert
deriving DecidableEq

/-- The `for attempt in range(3)` loop body of `execute_command_with_retries`,
iterating over the remaining attempt indices.  `f` gives each attempt's
outcome. -/
def executeRetriesGo (c : Command) (timeout : Nat) (f : Nat → AttemptResult) :
    List Nat → Nat → Nat → List Alert → RetryOutcome
  | [], used, slept, alerts => ⟨none, used, slept, alerts⟩
  | attempt :: rest, used, slept, alerts =>
    match f attempt with
    | .returns true => ⟨some true, used + 1, slept, alerts⟩
    | .returns false =>
      if attempt < 2 then
        executeRetriesGo c timeout f rest (used + 1) (slept + 1) alerts
      else
        ⟨some false, used + 1, slept,
          alerts ++ [⟨"error", "Command " ++ c.type ++ " failed after 3 attempts",
            some c.device_id,
            [("command_id", .str c.id), ("parameters", .params c.parameters)]⟩]⟩
    | .raisesTimeout =>
      ⟨some false, used + 1, slept,
        alerts ++ [⟨"error", "Command " ++ c.type ++ " timed out",
          some c.device_id,
          [("command_id", .str c.id), ("timeout", .nat timeout)]⟩]⟩
    | .raisesExc e =>
      ⟨some false, used + 1, slept,
        alerts ++ [⟨"error", "Error executing command " ++ c.type,
          some c.device_id,
          [("command_id", .str c.id), ("error", .str e)]⟩]⟩

/-- `CommandExecutor.execute_command_with_retries(command)`: looks up the
per-type timeout, then runs the three-attempt loop.  On `returns true` it
returns success at once; on `returns false` with attempts remaining it sleeps
5 s and retries, and on the third failure it alerts and returns failure; a
raised `TimeoutError` or other exception alerts and returns failure
immediately. -/
def execute_command_with_retries (c : Command) (f : Nat → AttemptResult) : RetryOutcome :=
  executeRetriesGo c (commandTimeout c.type) f [0, 1, 2] 0 0 []

end Drono

namespace Drono

/-- Attempt outcomes used to refute claim C2: the first attempt raises
`asyncio.TimeoutError` and every later attempt would succeed. -/
def timeoutThenSuccess : Nat → AttemptResult :=
  fun i => if i = 0 then .raisesTimeout else .returns true

/-- Claim C1: if every attempt fails (returns `False`, times out, or raises),
`execute_command_with_retries` performs at most 3 attempts, returns `False`,
and sends exactly one alert whose details carry the command id; and if the
attempts before position `i` return `False` and attempt `i` returns `True`,
it returns `True` immediately after `i + 1` attempts with no alert. -/
theorem retries_bound_failure_alert_and_early_success (c : Command) (f : Nat → AttemptResult) :
    ((∀ i, i < 3 → f i ≠ .returns true) →
      (execute_command_with_retries c f).result = some false ∧
      (execute_command_with_retries c f).attemptsUsed ≤ 3 ∧
      (execute_command_with_retries c f).alerts.length = 1 ∧
      ∀ a ∈ (execute_command_with_retries c f).alerts,
        ("command_id", DetailValue.str c.id) ∈ a.details) ∧
    (∀ i, i < 3 → (∀ j, j < i → f j = .returns false) → f i = .returns true →
      (execute_command_with_retries c f).result = some true ∧
      (execute_command_with_retries c f).attemptsUsed = i + 1 ∧
      (execute_command_with_retries c f).alerts = []) := by
  constructor
  · intro h
    have h0 := h 0 (by omega)
    have h1 := h 1 (by omega)
    have h2 := h 2 (by omega)
    rcases hf0 : f 0 with b0 | _ | e0
    · rcases b0 with _ | _
      · rcases hf1 : f 1 with b1 | _ | e1
        · rcases b1 with _ | _
          · rcases hf2 : f 2 with b2 | _ | e2
            · rcases b2 with _ | _
              · simp [execute_command_with_retries, executeRetriesGo, hf0, hf1, hf2]
              · exact absurd hf2 h2
            · simp [execute_command_with_retries, executeRetriesGo, hf0, hf1, hf2]
            · simp [execute_command_with_retries, executeRetriesGo, hf0, hf1, hf2]
          · exact absurd hf1 h1
        · simp [execute_command_with_retries, executeRetriesGo, hf0, hf1]
        · simp [execute_command_with_retries, executeRetriesGo, hf0, hf1]
      · exact absurd hf0 h0
    · simp [execute_command_with_retries, executeRetriesGo, hf0]
    · simp [execute_command_with_retries, executeRetriesGo, hf0]
  · intro i hi hprev hsucc
    interval_cases i
    · simp [execute_command_with_retries, executeRetriesGo, hsucc]
    · have h0 := hprev 0 (by omega)
      simp [execute_command_with_retries, executeRetriesGo, h0, hsucc]
    · have h0 := hprev 0 (by omega)
      have h1 := hprev 1 (by omega)
      simp [execute_command_with_retries, executeRetriesGo, h0, h1, hsucc]

/-- Witness for `retries_bound_failure_alert_and_early_success` at a concrete
command and all-failing attempts. -/
theorem retries_bound_failure_alert_and_early_success_witness :
    (execute_command_with_retries
      ⟨"cmd-1", "dev-1", "stop", [], 0, "pending", none⟩
      (fun _ => .returns false)).result = some false ∧
    (execute_command_with_retries
      ⟨"cmd-1", "dev-1", "stop", [], 0, "pending", none⟩
      (fun _ => .returns false)).alerts.length = 1 := by
  have h := (retries_bound_failure_alert_and_early_success
      ⟨"cmd-1", "dev-1", "stop", [], 0, "pending", none⟩
      (fun _ => .returns false)).1 (by intro i _ hcon; cases hcon)
  exact ⟨h.1, h.2.2.1⟩

/-- Claim C2 counterexample: with attempt 0 raising `asyncio.TimeoutError` and
attempt 1 set to succeed, `execute_command_with_retries` performs no further
attempt: it returns failure after exactly one attempt with no backoff sleep,
so a timed-out attempt terminates the retry sequence instead of counting as
one failed attempt followed by the next attempt. -/
theorem timeout_aborts_retry_counterexample :
    timeoutThenSuccess 0 = .raisesTimeout ∧
    timeoutThenSuccess 1 = .returns true ∧
    (execute_command_with_retries
      ⟨"cmd-2", "dev-1", "stop", [], 0, "pending", none⟩ timeoutThenSuccess).result
        = some false ∧
    (execute_command_with_retries
      ⟨"cmd-2", "dev-1", "stop", [], 0, "pending", none⟩ timeoutThenSuccess).attemptsUsed = 1 ∧
    (execute_command_with_retries
      ⟨"cmd-2", "dev-1", "stop", [], 0, "pending", none⟩ timeoutThenSuccess).sleeps = 0 ∧
    ¬ 2 ≤ (execute_command_with_retries
      ⟨"cmd-2", "dev-1", "stop", [], 0, "pending", none⟩ timeoutThenSuccess).attemptsUsed := by
  refine ⟨rfl, rfl, rfl, rfl, rfl, by decide⟩

/-- Claim C2 as amended: the per-command-type timeout is looked up and passed
to `_execute_with_timeout` but never enforced there (the attempt's result is
independent of the timeout value), and an attempt that raises
`asyncio.TimeoutError` terminates the retry sequence immediately: the call
returns failure after that attempt, with no backoff and no further attempts,
sending exactly one alert that carries the command id and the timeout value. -/
theorem timeout_unenforced_and_aborts_retries (c : Command) (f : Nat → AttemptResult) :
    (∀ t t' step, execute_with_timeout c t step = execute_with_timeout c t' step) ∧
    (∀ i, i < 3 → (∀ j, j < i → f j = .returns false) → f i = .raisesTimeout →
      (execute_command_with_retries c f).result = some false ∧
      (execute_command_with_retries c f).attemptsUsed = i + 1 ∧
      (execute_command_with_retries c f).sleeps = i ∧
      (execute_command_with_retries c f).alerts =
        [⟨"error", "Command " ++ c.type ++ " timed out", some c.device_id,
          [("command_id", .str c.id), ("timeout", .nat (commandTimeout c.type))]⟩]) := by
  constructor
  · intro t t' step
    simp [execute_with_timeout]
  · intro i hi hprev htime
    interval_cases i
    · simp [execute_command_with_retries, executeRetriesGo, htime]
    · have h0 := hprev 0 (by omega)
      simp [execute_command_with_retries, executeRetriesGo, h0, htime]
    · have h0 := hprev 0 (by omega)
      have h1 := hprev 1 (by omega)
      simp [execute_command_with_retries, executeRetriesGo, h0, h1, htime]

/-- Witness for `timeout_unenforced_and_aborts_retries`: a concrete command
whose second attempt times out after a first failed attempt. -/
theorem timeout_unenforced_and_aborts_retries_witness :
    (execute_command_with_retries
      ⟨"cmd-3", "dev-2", "pause", [], 0, "pending", none⟩
      (fun i => if i = 0 then .returns false else .raisesTimeout)).attemptsUsed = 2 := by
  have h := (timeout_unenforced_and_aborts_retries
      ⟨"cmd-3", "dev-2", "pause", [], 0, "pending", none⟩
      (fun i => if i = 0 then .returns false else .raisesTimeout)).2 1 (by omega)
      (by intro j hj; interval_cases j; rfl) (by rfl)
  exact h.2.1

/-! ## Command Queue (`server/core/command_queue.py`)

`CommandQueue` keeps one `asyncio.PriorityQueue` per device; `put` / `get`
are CPython `heapq.heappush` / `heapq.heappop` on a list of
`(-command.priority, command)` tuples.  Tuple comparison falls through to
comparing the `Command` objects when the first components are equal, and
`Command` defines no ordering, so that comparison raises `TypeError`.
The heap operations are modelled write-for-write after CPython `heapq`,
threading the partially mutated list out even when a comparison raises. -/

/-- Python exceptions that the queue paths can raise. -/
inductive PyErr where
  | typeError
  | indexError
  | fuelExhausted
deriving DecidableEq

/-- Python `<` on two `(-priority, command)` tuples: unequal first components
compare as integers; equal first components fall through to the `Command`
objects, where identical objects compare equal (so `<` is `False`) and
distinct objects raise `TypeError` (no ordering is defined on `Command`). -/
def entryLt (a b : Int × Command) : Except PyErr Bool :=
  if a.1 = b.1 then
    if a.2 = b.2 then .ok false
    else .error .typeError
  else .ok (decide (a.1 < b.1))

/-- CPython `heapq._siftdown(heap, startpos, pos)` with `newitem = heap[pos]`:
walks `newitem` up toward `startpos`, moving each larger parent down; writes
performed before a raising comparison persist.  `fuel` bounds the `while`
loop; `pos` strictly decreases, so any call with `fuel > pos` never exhausts
it. -/
def siftdown (startpos : Nat) (heap : List (Int × Command)) (pos : Nat)
    (newitem : Int × Command) (fuel : Nat) : List (Int × Command) × Option PyErr :=
  match fuel with
  | 0 => (heap, some .fuelExhausted)
  | fuel + 1 =>
    if startpos < pos then
      let parentpos := (pos - 1) / 2
      let parent := heap.getD parentpos newitem
      match entryLt newitem parent with
      | .error e => (heap, some e)
      | .ok true => siftdown startpos (heap.set pos parent) parentpos newitem fuel
      | .ok false => (heap.set pos newitem, none)
    else (heap.set pos newitem, none)

/-- CPython `heapq._siftup(heap, pos)` (here with explicit `startpos = pos`
and `newitem = heap[pos]` passed in): moves the smaller child up until a leaf
is reached, then calls `_siftdown`.  `fuel` bounds the `while` loop; any call
with `fuel > heap.length` never exhausts it. -/
def siftup (heap : List (Int × Command)) (startpos pos : Nat)
    (newitem : Int × Command) (fuel : Nat) : List (Int × Command) × Option PyErr :=
  match fuel with
  | 0 => (heap, some .fuelExhausted)
  | fuel + 1 =>
    let endpos := heap.length
    let childpos := 2 * pos + 1
    if childpos < endpos then
      let rightpos := childpos + 1
      match (if rightpos < endpos then
          (entryLt (heap.getD childpos newitem) (heap.getD rightpos newitem)).map
            (fun b => if b then childpos else rightpos)
        else .ok childpos) with
      | .error e => (heap, some e)
      | .ok cp => siftup (heap.set pos (heap.getD cp newitem)) startpos cp newitem fuel
    else siftdown startpos (heap.set pos newitem) pos newitem (pos + 1)

/-- CPython `heapq.heappush(heap, item)`: append, then sift the new last
element down toward the root. -/
def heappush (heap : List (Int × Command)) (item : Int × Command) :
    List (Int × Command) × Option PyErr :=
  let h := heap ++ [item]
  siftdown 0 h (h.length - 1) item h.length

/-- CPython `heapq.heappop(heap)`: pop the last element; if the heap is still
non-empty, return the old root after moving the last element there and sifting
it up.  On a raising comparison the mutated heap is kept and no item is
returned (the exception propagates to the caller). -/
def heappop (heap : List (Int × Command)) :
    Option (Int × Command) × List (Int × Command) × Option PyErr :=
  match heap.getLast? with
  | none => (none, heap, some .indexError)
  | some lastelt =>
    match heap.dropLast with
    | [] => (some lastelt, [], none)
    | r0 :: rrest =>
      let h1 := (r0 :: rrest).set 0 lastelt
      match siftup h1 0 0 lastelt (h1.length + 1) with
      | (h2, none) => (some r0, h2, none)
      | (h2, some e) => (none, h2, some e)

/-- The `CommandQueue` instance state: `queues` (device id → heap list of the
device's `asyncio.PriorityQueue`), `locks` (devices owning an `asyncio.Lock`),
and `running_commands`. -/
structure CommandQueueState where
  queues : List (String × List (Int × Command))
  locks : List String
  running_commands : List (String × Command)
deriving DecidableEq

/-- `CommandQueue()` constructor: all three dicts empty. -/
def initQueueState : CommandQueueState := ⟨[], [], []⟩

/-- Dict read `self.queues[device_id]` / membership test. -/
def lookupQueue (qs : List (String × List (Int × Command))) (dev : String) :
    Option (List (Int × Command)) :=
  (qs.find? (fun p => p.1 = dev)).map Prod.snd

/-- Dict write `self.queues[device_id] = h` for an existing key. -/
def setQueue (qs : List (String × List (Int × Command))) (dev : String)
    (h : List (Int × Command)) : List (String × List (Int × Command)) :=
  qs.map (fun p => if p.1 = dev then (p.1, h) else p)

/-- `CommandQueue.add_command(db, command)`: create the device's queue and
lock on first use, then `put((-command.priority, command))`.  The `put` can
raise `TypeError` from the heap sift when an equal-priority entry is already
present (the appended entry stays in the list, as in CPython). -/
def add_command (s : CommandQueueState) (c : Command) : CommandQueueState × Option PyErr :=
  let dev := c.device_id
  let s1 := if (lookupQueue s.queues dev).isSome then s
    else { s with queues := s.queues ++ [(dev, [])], locks := s.locks ++ [dev] }
  let hp := heappush ((lookupQueue s1.queues dev).getD []) (-c.priority, c)
  ({ s1 with queues := setQueue s1.queues dev hp.1 }, hp.2)

/-- Body of `process_queue`'s `while not empty(): get()` loop.  Each
dequeued command has its status set to `"running"`, is executed by the
`_execute_command` placeholder (a plain `sleep(1)`, which always succeeds),
and is then marked `"completed"`; the executed commands are returned in
dequeue order.  A `TypeError` raised inside `get()` propagates out of the
loop (the `get` is outside the `try`).  The returned state list holds the
`CommandQueue` state snapshot after each `get`, for mid-execution
observations.  `fuel` bounds the loop; `heap.length + 1` always suffices. -/
def processQueueGo (s : CommandQueueState) (dev : String) :
    List (Int × Command) → Nat → List Command → List CommandQueueState →
    List (Int × Command) × List Command × List CommandQueueState × Option PyErr
  | h, 0, execd, states => (h, execd, states, some .fuelExhausted)
  | h, fuel + 1, execd, states =>
    if h.isEmpty then (h, execd, states, none)
    else
      match heappop h with
      | (some e, h', none) =>
        processQueueGo s dev h' fuel (execd ++ [{ e.2 with status := "completed" }])
          (states ++ [{ s with queues := setQueue s.queues dev h' }])
      | (_, h', some e) =>
        (h', execd, states ++ [{ s with queues := setQueue s.queues dev h' }], some e)
      | (none, h', none) => (h', execd, states, some .indexError)

/-- `CommandQueue.process_queue(db, device_id)`: returns immediately when the
device has no queue; otherwise drains the queue under the device lock.
Returns the final state, the executed commands in order, the intermediate
state snapshots, and the propagated exception if any. -/
def process_queue (s : CommandQueueState) (dev : String) :
    CommandQueueState × List Command × List CommandQueueState × Option PyErr :=
  match lookupQueue s.queues dev with
  | none => (s, [], [], none)
  | some h =>
    let r := processQueueGo s dev h (h.length + 1) [] []
    ({ s with queues := setQueue s.queues dev r.1 }, r.2.1, r.2.2.1, r.2.2.2)

/-- Loop body of `clear_queue`: `get_nowait()` until empty (also a `heappop`,
so it can likewise raise `TypeError`). -/
def clearQueueGo : List (Int × Command) → Nat → List (Int × Command) × Option PyErr
  | h, 0 => (h, some .fuelExhausted)
  | h, fuel + 1 =>
    if h.isEmpty then (h, none)
    else
      match heappop h with
      | (some _, h', none) => clearQueueGo h' fuel
      | (_, h', some e) => (h', some e)
      | (none, h', none) => (h', some .indexError)

/-- `CommandQueue.clear_queue(device_id)`. -/
def clear_queue (s : CommandQueueState) (dev : String) : CommandQueueState × Option PyErr :=
  match lookupQueue s.queues dev with
  | none => (s, none)
  | some h =>
    let r := clearQueueGo h (h.length + 1)
    ({ s with queues := setQueue s.queues dev r.1 }, r.2)

/-- Return shape of `get_queue_status`. -/
structure QueueStatus where
  queue_size : Nat
  running_command : Option Command
deriving DecidableEq

/-- `CommandQueue.get_queue_status(device_id)`: `{queue_size, running_command}`
with `running_command = self.running_commands.get(device_id)`. -/
def get_queue_status (s : CommandQueueState) (dev : String) : QueueStatus :=
  match lookupQueue s.queues dev with
  | none => ⟨0, none⟩
  | some h => ⟨h.length, (s.running_commands.find? (fun p => p.1 = dev)).map Prod.snd⟩

/-- One public `CommandQueue` operation. -/
inductive QueueOp where
  | add (c : Command)
  | process (dev : String)
  | clear (dev : String)
  | status (dev : String)

/-- The state after one operation (the post-state is kept even when the
operation raised, matching the partially mutated Python state). -/
def queueStep (s : CommandQueueState) : QueueOp → CommandQueueState
  | .add c => (add_command s c).1
  | .process dev => (process_queue s dev).1
  | .clear dev => (clear_queue s dev).1
  | .status _ => s

/-- The state reached from a fresh `CommandQueue()` by a sequence of
operations. -/
def runQueueOps (ops : List QueueOp) : CommandQueueState :=
  ops.foldl queueStep initQueueState

theorem heappush_nil_eval (e : Int × Command) : heappush [] e = ([e], none) := rfl

theorem heappush_singleton_eval (a e : Int × Command) :
    heappush [a] e =
      match entryLt e a with
      | .error er => ([a, e], some er)
      | .ok true => ([e, a], none)
      | .ok false => ([a, e], none) := by
  rcases h : entryLt e a with er | b
  · simp [heappush, siftdown, h]
  · cases b <;> simp [heappush, siftdown, h]

theorem heappop_one_eval (a : Int × Command) : heappop [a] = (some a, [], none) := rfl

theorem heappop_two_eval (a b : Int × Command) : heappop [a, b] = (some a, [b], none) := rfl

theorem add_command_init_eval (c : Command) :
    add_command initQueueState c =
      (⟨[(c.device_id, [(-c.priority, c)])], [c.device_id], []⟩, none) := by
  simp [add_command, initQueueState, lookupQueue, setQueue, heappush_nil_eval]

theorem add_command_second_eval (c₁ c₂ : Command) (hdev : c₂.device_id = c₁.device_id) :
    add_command ⟨[(c₁.device_id, [(-c₁.priority, c₁)])], [c₁.device_id], []⟩ c₂ =
      (⟨[(c₁.device_id, (heappush [(-c₁.priority, c₁)] (-c₂.priority, c₂)).1)],
          [c₁.device_id], []⟩,
        (heappush [(-c₁.priority, c₁)] (-c₂.priority, c₂)).2) := by
  simp [add_command, lookupQueue, setQueue, hdev]

theorem process_pair_eval (dev : String) (x y : Int × Command) :
    process_queue ⟨[(dev, [x, y])], [dev], []⟩ dev =
      (⟨[(dev, [])], [dev], []⟩,
        [{ x.2 with status := "completed" }, { y.2 with status := "completed" }],
        [⟨[(dev, [y])], [dev], []⟩, ⟨[(dev, [])], [dev], []⟩], none) := by
  simp [process_queue, lookupQueue, setQueue, processQueueGo,
    heappop_two_eval, heappop_one_eval]

/-- Claim C3 counterexample: enqueueing a second command with the same
priority for the same device raises `TypeError` (heap comparison falls
through to the unordered `Command` objects), so commands of equal priority
are not executed in arrival order — the second enqueue fails.  The first
enqueue succeeds. -/
theorem equal_priority_tie_counterexample :
    (add_command (runQueueOps [.add ⟨"c1", "dev-1", "start", [], 1, "pending", none⟩])
        ⟨"c2", "dev-1", "stop", [], 1, "pending", none⟩).2 = some .typeError ∧
    (add_command initQueueState ⟨"c1", "dev-1", "start", [], 1, "pending", none⟩).2 = none := by
  exact ⟨rfl, rfl⟩

/-- Claim C3 as amended: among two commands enqueued for one device,
`process_queue` executes the strictly-higher-priority one first (so the
spec's concrete example runs `c2` before `c1`); but commands of equal
priority are not tie-broken by arrival order: the second equal-priority
`add_command` raises `TypeError`, because the heap compares the unordered
`Command` objects. -/
theorem higher_priority_first_and_tie_raises (c₁ c₂ : Command)
    (hdev : c₂.device_id = c₁.device_id) :
    (c₁.priority < c₂.priority →
      (process_queue (runQueueOps [.add c₁, .add c₂]) c₁.device_id).2.1 =
        [{ c₂ with status := "completed" }, { c₁ with status := "completed" }] ∧
      (process_queue (runQueueOps [.add c₁, .add c₂]) c₁.device_id).2.2.2 = none) ∧
    (c₂.priority < c₁.priority →
      (process_queue (runQueueOps [.add c₁, .add c₂]) c₁.device_id).2.1 =
        [{ c₁ with status := "completed" }, { c₂ with status := "completed" }] ∧
      (process_queue (runQueueOps [.add c₁, .add c₂]) c₁.device_id).2.2.2 = none) ∧
    (c₁.priority = c₂.priority → c₁ ≠ c₂ →
      (add_command (runQueueOps [.add c₁]) c₂).2 = some .typeError) := by
  have hrun1 : runQueueOps [QueueOp.add c₁] =
      ⟨[(c₁.device_id, [(-c₁.priority, c₁)])], [c₁.device_id], []⟩ := by
    simp [runQueueOps, queueStep, add_command_init_eval]
  have hrun2 : runQueueOps [QueueOp.add c₁, QueueOp.add c₂] =
      ⟨[(c₁.device_id, (heappush [(-c₁.priority, c₁)] (-c₂.priority, c₂)).1)],
        [c₁.device_id], []⟩ := by
    simp [runQueueOps, queueStep, add_command_init_eval,
      add_command_second_eval c₁ c₂ hdev]
  refine ⟨?_, ?_, ?_⟩
  · intro hp
    have h1 : ¬ (-c₂.priority = -c₁.priority) := by omega
    have h2 : -c₂.priority < -c₁.priority := by omega
    have hcmp : entryLt (-c₂.priority, c₂) (-c₁.priority, c₁) = .ok true := by
      simp [entryLt, h1, h2]
    have hpush : heappush [(-c₁.priority, c₁)] (-c₂.priority, c₂) =
        ([(-c₂.priority, c₂), (-c₁.priority, c₁)], none) := by
      rw [heappush_singleton_eval, hcmp]
    simp only [hrun2, hpush]
    rw [process_pair_eval]
    exact ⟨rfl, rfl⟩
  · intro hp
    have h1 : ¬ (-c₂.priority = -c₁.priority) := by omega
    have h2 : ¬ (-c₂.priority < -c₁.priority) := by omega
    have hcmp : entryLt (-c₂.priority, c₂) (-c₁.priority, c₁) = .ok false := by
      simp [entryLt, h1, h2]
    have hpush : heappush [(-c₁.priority, c₁)] (-c₂.priority, c₂) =
        ([(-c₁.priority, c₁), (-c₂.priority, c₂)], none) := by
      rw [heappush_singleton_eval, hcmp]
    simp only [hrun2, hpush]
    rw [process_pair_eval]
    exact ⟨rfl, rfl⟩
  · intro hpeq hne
    have h1 : -c₂.priority = -c₁.priority := by omega
    have h2 : ¬ (c₂ = c₁) := fun hc => hne hc.symm
    have hcmp : entryLt (-c₂.priority, c₂) (-c₁.priority, c₁) = .error .typeError := by
      simp [entryLt, h1, h2]
    rw [hrun1, add_command_second_eval c₁ c₂ hdev, heappush_singleton_eval, hcmp]

/-- Witness for `higher_priority_first_and_tie_raises`: the spec's example —
`c1` (priority 0) then `c2` (priority 5) on device `"dev-1"` — drains `c2`
before `c1`. -/
theorem higher_priority_first_and_tie_raises_witness :
    (process_queue (runQueueOps
        [.add ⟨"c1", "dev-1", "start", [], 0, "pending", none⟩,
         .add ⟨"c2", "dev-1", "stop", [], 5, "pending", none⟩]) "dev-1").2.1 =
      [⟨"c2", "dev-1", "stop", [], 5, "completed", none⟩,
       ⟨"c1", "dev-1", "start", [], 0, "completed", none⟩] := by
  have h := (higher_priority_first_and_tie_raises
      ⟨"c1", "dev-1", "start", [], 0, "pending", none⟩
      ⟨"c2", "dev-1", "stop", [], 5, "pending", none⟩ rfl).1 (by decide)
  exact h.1

theorem queueStep_preserves_running (s : CommandQueueState) (op : QueueOp) :
    (queueStep s op).running_commands = s.running_commands := by
  cases op with
  | add c =>
    simp only [queueStep, add_command]
    split <;> rfl
  | process dev =>
    simp only [queueStep, process_queue]
    cases hq : lookupQueue s.queues dev <;> simp [hq]
  | clear dev =>
    simp only [queueStep, clear_queue]
    cases hq : lookupQueue s.queues dev <;> simp [hq]
  | status dev => rfl

theorem processQueueGo_states_running (s : CommandQueueState) (dev : String) :
    ∀ (fuel : Nat) (h : List (Int × Command)) (execd : List Command)
      (states : List CommandQueueState),
      (∀ t ∈ states, t.running_commands = s.running_commands) →
      ∀ t ∈ (processQueueGo s dev h fuel execd states).2.2.1,
        t.running_commands = s.running_commands := by
  intro fuel
  induction fuel with
  | zero =>
    intro h execd states hs t ht
    simp only [processQueueGo] at ht
    exact hs t ht
  | succ n ih =>
    intro h execd states hs t ht
    by_cases he : h.isEmpty
    · simp only [processQueueGo, he, if_pos] at ht
      exact hs t ht
    · rcases hp : heappop h with ⟨o, h', e⟩
      rcases o with _ | item
      · rcases e with _ | er
        · simp only [processQueueGo, he, if_neg, hp] at ht
          exact hs t ht
        · simp only [processQueueGo, he, if_neg, hp] at ht
          rcases List.mem_append.mp ht with ht | ht
          · exact hs t ht
          · rw [List.mem_singleton.mp ht]
      · rcases e with _ | er
        · simp only [processQueueGo, he, if_neg, hp] at ht
          refine ih h' _ _ ?_ t ht
          intro t' ht'
          rcases List.mem_append.mp ht' with ht' | ht'
          · exact hs t' ht'
          · rw [List.mem_singleton.mp ht']
        · simp only [processQueueGo, he, if_neg, hp] at ht
          rcases List.mem_append.mp ht with ht | ht
          · exact hs t ht
          · rw [List.mem_singleton.mp ht]

/-- Claim C10: no `CommandQueue` operation ever writes `running_commands`:
after any sequence of operations from a fresh queue it is still empty,
`get_queue_status` reports `running_command = None` for every device, and
every intermediate state during a `process_queue` drain still has it empty. -/
theorem running_commands_always_empty (ops : List QueueOp) (dev dev' : String) :
    (runQueueOps ops).running_commands = [] ∧
    (get_queue_status (runQueueOps ops) dev).running_command = none ∧
    ∀ t ∈ (process_queue (runQueueOps ops) dev').2.2.1, t.running_commands = [] := by
  have hfold : ∀ (l : List QueueOp) (s : CommandQueueState),
      (l.foldl queueStep s).running_commands = s.running_commands := by
    intro l
    induction l with
    | nil => intro s; rfl
    | cons op rest ih =>
      intro s
      rw [List.foldl_cons, ih, queueStep_preserves_running]
  have h0 : (runQueueOps ops).running_commands = [] := hfold ops initQueueState
  refine ⟨h0, ?_, ?_⟩
  · unfold get_queue_status
    cases hq : lookupQueue (runQueueOps ops).queues dev
    · simp
    · simp [h0]
  · intro t ht
    rcases hq : lookupQueue (runQueueOps ops).queues dev' with _ | h
    · simp [process_queue, hq] at ht
    · simp only [process_queue, hq] at ht
      have hrc := processQueueGo_states_running (runQueueOps ops) dev' (h.length + 1) h [] []
        (by intro t' ht'; cases ht') t ht
      rw [hrc, h0]

/-! ## Device Registry (`server/core/device_manager.py`)

`scan_devices` parses the text output of `adb devices -l` and reconciles the
in-memory `self.devices` dict against it: listed-but-unknown devices are
added with the scan's raw status string, known-and-listed devices get their
`status`/`model` updated in place, and known-but-unlisted devices are
removed.  A raised adb failure is caught, logged, and leaves the registry
untouched.  No alert is ever sent from this path. -/

/-- The in-memory `Device` of `device_manager.py` (`__init__` defaults:
`last_command_status=None`, `running=False`, `last_updated=None`,
`current_iteration=None`). -/
structure DeviceR where
  id : String
  model : String
  status : String
  last_command_status : Option String := none
  running : Bool := false
  last_updated : Option String := none
  current_iteration : Option Nat := none
deriving DecidableEq

/-- `Device(device_id, model, status)`. -/
def mkDevice (id model status : String) : DeviceR :=
  ⟨id, model, status, none, false, none, none⟩

/-- Python `str.split()` (no argument): whitespace runs separate tokens,
leading/trailing whitespace yields no empty tokens.  `cur` holds the
characters of the token being read, in reverse. -/
def splitWsGo : List Char → List Char → List String
  | [], cur => if cur.isEmpty then [] else [String.mk cur.reverse]
  | c :: cs, cur =>
    if c.isWhitespace then
      if cur.isEmpty then splitWsGo cs [] else String.mk cur.reverse :: splitWsGo cs []
    else splitWsGo cs (c :: cur)

/-- Python `line.split()`. -/
def pySplit (line : String) : List String :=
  splitWsGo line.toList []

/-- Python `s.split('\n')`. -/
def splitLinesGo : List Char → List Char → List String
  | [], cur => [String.mk cur.reverse]
  | c :: cs, cur =>
    if c = '\n' then String.mk cur.reverse :: splitLinesGo cs []
    else splitLinesGo cs (c :: cur)

/-- Python `s.split('\n')` on a whole output text. -/
def pySplitLines (s : String) : List String :=
  splitLinesGo s.toList []

/-- Python `s.strip()`: drop leading and trailing whitespace. -/
def pyStrip (s : String) : String :=
  String.mk ((s.toList.dropWhile Char.isWhitespace).reverse.dropWhile
    Char.isWhitespace).reverse

/-- The characters after the first occurrence of `pat` in the scanned list,
if `pat` occurs. -/
def afterSubstr (pat : List Char) : List Char → Option (List Char)
  | [] => none
  | c :: cs =>
    if pat.isPrefixOf (c :: cs) then some ((c :: cs).drop pat.length)
    else afterSubstr pat cs

/-- The capture of `re.search(r'model:(\S+)', line)` restricted to one
whitespace-free token: the non-empty remainder of the token after its first
`"model:"` occurrence. -/
def modelCapture (t : String) : Option String :=
  match afterSubstr "model:".toList t.toList with
  | none => none
  | some [] => none
  | some (r :: rs) => some (String.mk (r :: rs))

/-- The parsing of one line below the `adb devices -l` header: needs at least
two whitespace-separated fields (`device_id`, `status`); statuses outside
`{device, unauthorized, offline}` are skipped; the model comes from the first
`model:` field anywhere in the line, defaulting to `"Unknown"`. -/
def parseLine (line : String) : Option (String × String × String) :=
  match pySplit line with
  | devId :: status :: _ =>
    if status = "device" ∨ status = "unauthorized" ∨ status = "offline" then
      some (devId, status, ((pySplit line).findSome? modelCapture).getD "Unknown")
    else none
  | _ => none

/-- The per-line registry action of the scan loop: update `status` and
`model` in place when `device_id in self.devices`, else append a fresh
`Device`. -/
def upsertDevice (reg : List DeviceR) (id status model : String) : List DeviceR :=
  if reg.any (fun d => d.id = id) then
    reg.map (fun d => if d.id = id then { d with status := status, model := model } else d)
  else reg ++ [mkDevice id model status]

/-- One iteration of the scan loop, also accumulating `current_devices`
(the ids seen by this scan). -/
def scanStep (acc : List DeviceR × List String) (line : String) :
    List DeviceR × List String :=
  match parseLine line with
  | none => acc
  | some (id, status, model) => (upsertDevice acc.1 id status model, acc.2 ++ [id])

/-- The reconciliation body of `scan_devices`: run the scan loop over the
lines, then delete every registry entry whose id is not in
`current_devices`. -/
def reconcile (reg : List DeviceR) (lines : List String) : List DeviceR :=
  (lines.foldl scanStep (reg, [])).1.filter
    (fun d => (lines.foldl scanStep (reg, [])).2.contains d.id)

/-- `DeviceManager.scan_devices()`: `adb` is the result of
`_run_adb_command(["devices", "-l"])` (output text, or a raised failure).
On failure the `except` branch logs and returns `[]`, leaving the registry
untouched; on success the output is stripped, split into lines, the header
line dropped, and the registry reconciled.  Returns the new registry, the
returned device list, and the alerts sent on this path (none exist in the
source). -/
def scan_devices (reg : List DeviceR) (adb : Except String String) :
    List DeviceR × List DeviceR × List Alert :=
  match adb with
  | .error _ => (reg, [], [])
  | .ok out =>
    let r := reconcile reg ((pySplitLines (pyStrip out)).drop 1)
    (r, r, [])

/-- Claim C5: when the adb listing operation raises, `scan_devices` leaves
the registry exactly as it was — no device added, removed, or modified. -/
theorem scan_failure_leaves_registry_unchanged (reg : List DeviceR) (msg : String) :
    (scan_devices reg (.error msg)).1 = reg ∧
    (scan_devices reg (.error msg)).2.1 = [] := by
  exact ⟨rfl, rfl⟩

/-- Claim C4 counterexample: with `"dev-1"` absent from the registry and the
scan listing exactly `dev-1` with adb status `"device"` and `model:Pixel`,
the registry afterwards holds one `Device` whose `status` is the raw string
`"device"`, not `"online"` — `scan_devices` never maps adb statuses to
`"online"`. -/
theorem scan_stores_raw_status_counterexample :
    (scan_devices [] (.ok "List of devices attached\ndev-1 device model:Pixel")).1 =
      [⟨"dev-1", "Pixel", "device", none, false, none, none⟩] ∧
    ∀ d ∈ (scan_devices []
        (.ok "List of devices attached\ndev-1 device model:Pixel")).1,
      ¬ d.status = "online" := by
  constructor
  · rfl
  · decide

/-- Claim C4 as amended: with `"dev-1"` absent and the listing containing
exactly `{id:"dev-1", model:"Pixel", status:"device"}`, the registry after
`scan_devices` contains exactly one `Device` whose `status` is the raw adb
string `"device"` (the source never maps it to `"online"`); and a subsequent
successful scan that no longer lists `"dev-1"` removes it, with no alert
produced by either scan (`scan_devices` contains no alert call). -/
theorem scan_adds_raw_status_then_removes_without_alert :
    (scan_devices [] (.ok "List of devices attached\ndev-1 device model:Pixel")).1 =
      [⟨"dev-1", "Pixel", "device", none, false, none, none⟩] ∧
    (scan_devices [⟨"dev-1", "Pixel", "device", none, false, none, none⟩]
      (.ok "List of devices attached")).1 = [] ∧
    (scan_devices [] (.ok "List of devices attached\ndev-1 device model:Pixel")).2.2 = [] ∧
    (scan_devices [⟨"dev-1", "Pixel", "device", none, false, none, none⟩]
      (.ok "List of devices attached")).2.2 = [] := by
  exact ⟨rfl, rfl, rfl, rfl⟩

/-- The successfully parsed `(id, status, model)` entries of the scan lines. -/
def parsedEntries (lines : List String) : List (String × String × String) :=
  lines.filterMap parseLine

/-- The ids of the parsed entries (with multiplicity, in scan order). -/
def parsedIds (lines : List String) : List String :=
  (parsedEntries lines).map (fun e => e.1)

/-- The last `(status, model)` the scan parses for a given id, if any. -/
def lastEntryFor (lines : List String) (id : String) : Option (String × String) :=
  ((parsedEntries lines).reverse.find? (fun e => e.1 = id)).map (fun e => e.2)

/-- The net effect of all in-place updates of one scan on an existing
device. -/
def applyLast (lines : List String) (d : DeviceR) : DeviceR :=
  match lastEntryFor lines d.id with
  | none => d
  | some (status, model) => { d with status := status, model := model }

/-- The ids the scan creates fresh `Device`s for, in first-occurrence order,
given the pre-existing registry key list `ks`. -/
def newIds (ks : List String) : List String → List String
  | [] => []
  | line :: rest =>
    match parseLine line with
    | none => newIds ks rest
    | some (id, _, _) =>
      if id ∈ ks then newIds ks rest else id :: newIds (id :: ks) rest

/-- The final value of a device freshly created by the scan for id `j`. -/
def devFor (lines : List String) (j : String) : DeviceR :=
  match lastEntryFor lines j with
  | some (status, model) => mkDevice j model status
  | none => mkDevice j "" ""

theorem find?_append_singleton_of_some {α : Type} (p : α → Bool) (l : List α) (e x : α)
    (h : l.find? p = some x) : (l ++ [e]).find? p = some x := by
  induction l with
  | nil => simp [List.find?] at h
  | cons a l ih =>
    rw [List.cons_append]
    by_cases hp : p a
    · rw [List.find?_cons_of_pos _ hp] at h ⊢
      exact h
    · rw [List.find?_cons_of_neg _ hp] at h ⊢
      exact ih h

theorem find?_append_singleton_of_none {α : Type} (p : α → Bool) (l : List α) (e : α)
    (h : l.find? p = none) : (l ++ [e]).find? p = [e].find? p := by
  induction l with
  | nil => rfl
  | cons a l ih =>
    rw [List.cons_append]
    by_cases hp : p a
    · rw [List.find?_cons_of_pos _ hp] at h
      exact absurd h (by simp)
    · rw [List.find?_cons_of_neg _ hp] at h
      rw [List.find?_cons_of_neg _ hp]
      exact ih h

theorem parsedEntries_cons_none {line : String} (rest : List String)
    (hp : parseLine line = none) :
    parsedEntries (line :: rest) = parsedEntries rest := by
  simp [parsedEntries, hp]

theorem parsedEntries_cons_some {line : String} (rest : List String)
    {e : String × String × String} (hp : parseLine line = some e) :
    parsedEntries (line :: rest) = e :: parsedEntries rest := by
  simp [parsedEntries, hp]

theorem lastEntryFor_cons_none {line : String} (rest : List String) (id : String)
    (hp : parseLine line = none) :
    lastEntryFor (line :: rest) id = lastEntryFor rest id := by
  simp [lastEntryFor, parsedEntries_cons_none rest hp]

theorem lastEntryFor_cons_ne {line : String} (rest : List String) {j s m : String}
    (id : String) (hp : parseLine line = some (j, s, m)) (hne : ¬ j = id) :
    lastEntryFor (line :: rest) id = lastEntryFor rest id := by
  rw [lastEntryFor, lastEntryFor, parsedEntries_cons_some rest hp, List.reverse_cons]
  cases hf : (parsedEntries rest).reverse.find? (fun e => e.1 = id) with
  | some x => rw [find?_append_singleton_of_some _ _ _ _ hf]
  | none =>
    rw [find?_append_singleton_of_none _ _ _ hf]
    simp [List.find?, hne]

theorem lastEntryFor_cons_self {line : String} (rest : List String) {j s m : String}
    (hp : parseLine line = some (j, s, m)) :
    lastEntryFor (line :: rest) j = some ((lastEntryFor rest j).getD (s, m)) := by
  rw [lastEntryFor, lastEntryFor, parsedEntries_cons_some rest hp, List.reverse_cons]
  cases hf : (parsedEntries rest).reverse.find? (fun e => e.1 = j) with
  | some x => rw [find?_append_singleton_of_some _ _ _ _ hf]; rfl
  | none =>
    rw [find?_append_singleton_of_none _ _ _ hf]
    simp [List.find?]

theorem lastEntryFor_isSome_iff (lines : List String) (id : String) :
    (lastEntryFor lines id).isSome ↔ id ∈ parsedIds lines := by
  rw [lastEntryFor, parsedIds, Option.isSome_map']
  rw [List.find?_isSome]
  constructor
  · rintro ⟨e, he, hpe⟩
    exact List.mem_map.mpr ⟨e, List.mem_reverse.mp he, by simpa using hpe⟩
  · intro h
    obtain ⟨e, he, hid⟩ := List.mem_map.mp h
    exact ⟨e, List.mem_reverse.mpr he, by simpa using hid⟩

theorem applyLast_id_eq (lines : List String) (d : DeviceR) :
    (applyLast lines d).id = d.id := by
  rw [applyLast]
  cases lastEntryFor lines d.id with
  | none => rfl
  | some e => cases e; rfl

theorem applyLast_applyLast (lines : List String) (d : DeviceR) :
    applyLast lines (applyLast lines d) = applyLast lines d := by
  cases he : lastEntryFor lines d.id with
  | none => simp [applyLast, he]
  | some e =>
    cases e with
    | mk s m => simp [applyLast, he]

theorem devFor_id_eq (lines : List String) (j : String) : (devFor lines j).id = j := by
  rw [devFor]
  cases lastEntryFor lines j with
  | none => rfl
  | some e => cases e; rfl

theorem applyLast_devFor (lines : List String) (j : String)
    (h : j ∈ parsedIds lines) :
    applyLast lines (devFor lines j) = devFor lines j := by
  have hs := (lastEntryFor_isSome_iff lines j).mpr h
  rw [Option.isSome_iff_exists] at hs
  obtain ⟨e, he⟩ := hs
  cases e with
  | mk s m => simp [applyLast, devFor, mkDevice, he]

theorem mem_newIds {j : String} :
    ∀ (lines : List String) (ks : List String), j ∈ newIds ks lines →
      j ∉ ks ∧ j ∈ parsedIds lines := by
  intro lines
  induction lines with
  | nil => intro ks h; simp [newIds] at h
  | cons line rest ih =>
    intro ks h
    rcases hp : parseLine line with _ | ⟨i, s, m⟩
    · simp only [newIds, hp] at h
      have := ih ks h
      simp only [parsedIds, parsedEntries_cons_none rest hp]
      exact this
    · simp only [newIds, hp] at h
      simp only [parsedIds, parsedEntries_cons_some rest hp, List.map_cons]
      by_cases hik : i ∈ ks
      · rw [if_pos hik] at h
        have := ih ks h
        exact ⟨this.1, List.mem_cons_of_mem _ this.2⟩
      · rw [if_neg hik] at h
        rcases List.mem_cons.mp h with rfl | h
        · exact ⟨hik, List.mem_cons_self _ _⟩
        · have := ih (i :: ks) h
          refine ⟨fun hk => this.1 (List.mem_cons_of_mem _ hk), List.mem_cons_of_mem _ this.2⟩

theorem newIds_eq_nil :
    ∀ (lines : List String) (ks : List String),
      (∀ j ∈ parsedIds lines, j ∈ ks) → newIds ks lines = [] := by
  intro lines
  induction lines with
  | nil => intro ks _; rfl
  | cons line rest ih =>
    intro ks h
    rcases hp : parseLine line with _ | ⟨i, s, m⟩
    · simp only [newIds, hp]
      refine ih ks (fun j hj => h j ?_)
      simp only [parsedIds, parsedEntries_cons_none rest hp]
      exact hj
    · simp only [newIds, hp]
      have hmem : ∀ j ∈ parsedIds rest, j ∈ ks := by
        intro j hj
        refine h j ?_
        simp only [parsedIds, parsedEntries_cons_some rest hp, List.map_cons]
        exact List.mem_cons_of_mem _ hj
      have hik : i ∈ ks := by
        refine h i ?_
        simp only [parsedIds, parsedEntries_cons_some rest hp, List.map_cons]
        exact List.mem_cons_self _ _
      rw [if_pos hik]
      exact ih ks hmem

theorem mem_newIds_of_mem {j : String} :
    ∀ (lines : List String) (ks : List String),
      j ∈ parsedIds lines → j ∉ ks → j ∈ newIds ks lines := by
  intro lines
  induction lines with
  | nil => intro ks h _; simp [parsedIds, parsedEntries] at h
  | cons line rest ih =>
    intro ks h hk
    rcases hp : parseLine line with _ | ⟨i, s, m⟩
    · simp only [newIds, hp]
      simp only [parsedIds, parsedEntries_cons_none rest hp] at h
      exact ih ks h hk
    · simp only [newIds, hp]
      simp only [parsedIds, parsedEntries_cons_some rest hp, List.map_cons] at h
      by_cases hik : i ∈ ks
      · rw [if_pos hik]
        rcases List.mem_cons.mp h with rfl | h
        · exact absurd hik hk
        · exact ih ks h hk
      · rw [if_neg hik]
        rcases List.mem_cons.mp h with rfl | h
        · exact List.mem_cons_self _ _
        · by_cases hji : j = i
          · subst hji; exact List.mem_cons_self _ _
          · refine List.mem_cons_of_mem _ (ih (i :: ks) h ?_)
            intro hc
            rcases List.mem_cons.mp hc with hc | hc
            · exact hji hc
            · exact hk hc

theorem newIds_congr :
    ∀ (lines : List String) (ks ks' : List String),
      (∀ x, x ∈ ks ↔ x ∈ ks') → newIds ks lines = newIds ks' lines := by
  intro lines
  induction lines with
  | nil => intro ks ks' _; rfl
  | cons line rest ih =>
    intro ks ks' h
    rcases hp : parseLine line with _ | ⟨i, s, m⟩
    · simp only [newIds, hp]
      exact ih ks ks' h
    · simp only [newIds, hp]
      by_cases hik : i ∈ ks
      · rw [if_pos hik, if_pos ((h i).mp hik)]
        exact ih ks ks' h
      · rw [if_neg hik, if_neg (fun hc => hik ((h i).mpr hc))]
        rw [ih (i :: ks) (i :: ks') (by intro x; simp [h x])]

theorem applyLast_cons_upd {line : String} (rest : List String) {j s m : String}
    (hp : parseLine line = some (j, s, m)) (d : DeviceR) :
    applyLast (line :: rest) d =
      applyLast rest (if d.id = j then { d with status := s, model := m } else d) := by
  by_cases hdj : d.id = j
  · cases hl : lastEntryFor rest j with
    | none => simp [applyLast, hdj, lastEntryFor_cons_self rest hp, hl]
    | some e =>
      cases e with
      | mk s' m' => simp [applyLast, hdj, lastEntryFor_cons_self rest hp, hl]
  · have hne : ¬ j = d.id := fun hc => hdj hc.symm
    simp [applyLast, hdj, lastEntryFor_cons_ne rest d.id hp hne]

theorem applyLast_mk_devFor {line : String} (rest : List String) {j s m : String}
    (hp : parseLine line = some (j, s, m)) :
    applyLast rest (mkDevice j m s) = devFor (line :: rest) j := by
  cases hl : lastEntryFor rest j with
  | none => simp [applyLast, devFor, mkDevice, lastEntryFor_cons_self rest hp, hl]
  | some e =>
    cases e with
    | mk s' m' => simp [applyLast, devFor, mkDevice, lastEntryFor_cons_self rest hp, hl]

theorem foldScan_eval :
    ∀ (lines : List String) (reg : List DeviceR) (cur : List String),
      lines.foldl scanStep (reg, cur) =
        (reg.map (applyLast lines) ++
            (newIds (reg.map DeviceR.id) lines).map (devFor lines),
          cur ++ parsedIds lines) := by
  intro lines
  induction lines with
  | nil =>
    intro reg cur
    have ha : applyLast [] = fun d => d :=
      funext fun d => by simp [applyLast, lastEntryFor, parsedEntries]
    simp [ha, parsedIds, parsedEntries, newIds]
  | cons line rest ih =>
    intro reg cur
    rw [List.foldl_cons]
    rcases hp : parseLine line with _ | ⟨j, s, m⟩
    · have hstep : scanStep (reg, cur) line = (reg, cur) := by simp [scanStep, hp]
      rw [hstep, ih]
      have ha : applyLast (line :: rest) = applyLast rest :=
        funext fun d => by simp [applyLast, lastEntryFor_cons_none rest d.id hp]
      have hd : devFor (line :: rest) = devFor rest :=
        funext fun j => by simp [devFor, lastEntryFor_cons_none rest j hp]
      have hn : newIds (reg.map DeviceR.id) (line :: rest) =
          newIds (reg.map DeviceR.id) rest := by
        simp only [newIds, hp]
      have hpi : parsedIds (line :: rest) = parsedIds rest := by
        simp only [parsedIds, parsedEntries_cons_none rest hp]
      rw [ha, hd, hn, hpi]
    · have hstep : scanStep (reg, cur) line = (upsertDevice reg j s m, cur ++ [j]) := by
        simp [scanStep, hp]
      rw [hstep, ih]
      have hpi : parsedIds (line :: rest) = j :: parsedIds rest := by
        simp only [parsedIds, parsedEntries_cons_some rest hp, List.map_cons]
      rw [hpi]
      simp only [Prod.mk.injEq]
      refine ⟨?_, by simp⟩
      by_cases hmem : reg.any (fun d => d.id = j) = true
      · have hjks : j ∈ reg.map DeviceR.id := by
          rw [List.any_eq_true] at hmem
          obtain ⟨d, hd, hdj⟩ := hmem
          exact List.mem_map.mpr ⟨d, hd, by simpa using hdj⟩
        have hkeys : (upsertDevice reg j s m).map DeviceR.id = reg.map DeviceR.id := by
          unfold upsertDevice
          rw [if_pos hmem, List.map_map]
          refine List.map_congr_left ?_
          intro d _
          by_cases hdj : d.id = j <;> simp [hdj]
        have hmap : reg.map (applyLast (line :: rest)) =
            (upsertDevice reg j s m).map (applyLast rest) := by
          unfold upsertDevice
          rw [if_pos hmem, List.map_map]
          exact List.map_congr_left (fun d _ => applyLast_cons_upd rest hp d)
        have hndev : newIds (reg.map DeviceR.id) (line :: rest) =
            newIds (reg.map DeviceR.id) rest := by
          simp only [newIds, hp]
          rw [if_pos hjks]
        have hdevmap : (newIds (reg.map DeviceR.id) rest).map (devFor (line :: rest)) =
            (newIds (reg.map DeviceR.id) rest).map (devFor rest) := by
          refine List.map_congr_left ?_
          intro j' hj'
          have hnk := (mem_newIds rest _ hj').1
          have hne : ¬ j = j' := fun hc => hnk (hc ▸ hjks)
          simp [devFor, lastEntryFor_cons_ne rest j' hp hne]
        rw [hkeys, hndev, hdevmap, hmap]
      · have hnotin : j ∉ reg.map DeviceR.id := by
          intro hc
          obtain ⟨d, hd, hdj⟩ := List.mem_map.mp hc
          exact hmem (List.any_eq_true.mpr ⟨d, hd, by simpa using hdj⟩)
        have hups : upsertDevice reg j s m = reg ++ [mkDevice j m s] := by
          unfold upsertDevice
          rw [if_neg hmem]
        have hkeys : (upsertDevice reg j s m).map DeviceR.id =
            reg.map DeviceR.id ++ [j] := by
          rw [hups, List.map_append]
          rfl
        have hnnew : newIds (reg.map DeviceR.id) (line :: rest) =
            j :: newIds (j :: reg.map DeviceR.id) rest := by
          simp only [newIds, hp]
          rw [if_neg hnotin]
        have hmapreg : reg.map (applyLast (line :: rest)) = reg.map (applyLast rest) := by
          refine List.map_congr_left ?_
          intro d hd
          have hdj : ¬ d.id = j := by
            intro hc
            exact hmem (List.any_eq_true.mpr ⟨d, hd, by simpa using hc⟩)
          rw [applyLast_cons_upd rest hp d, if_neg hdj]
        have hcongrks : newIds (reg.map DeviceR.id ++ [j]) rest =
            newIds (j :: reg.map DeviceR.id) rest := by
          refine newIds_congr rest _ _ ?_
          intro x
          simp [or_comm]
        have hdevmap : (newIds (j :: reg.map DeviceR.id) rest).map (devFor (line :: rest)) =
            (newIds (j :: reg.map DeviceR.id) rest).map (devFor rest) := by
          refine List.map_congr_left ?_
          intro j' hj'
          have hnk := (mem_newIds rest _ hj').1
          have hne : ¬ j = j' := by
            intro hc
            exact hnk (hc ▸ List.mem_cons_self _ _)
          simp [devFor, lastEntryFor_cons_ne rest j' hp hne]
        rw [hkeys, hcongrks, hups, List.map_append, hnnew, hmapreg]
        simp [hdevmap, applyLast_mk_devFor rest hp, List.append_assoc]

theorem reconcile_eval (reg : List DeviceR) (lines : List String) :
    reconcile reg lines =
      (reg.map (applyLast lines) ++
          (newIds (reg.map DeviceR.id) lines).map (devFor lines)).filter
        (fun d => (parsedIds lines).contains d.id) := by
  unfold reconcile
  rw [foldScan_eval]
  simp

theorem reconcile_idem (reg : List DeviceR) (lines : List String) :
    reconcile (reconcile reg lines) lines = reconcile reg lines := by
  have hRmem : ∀ d ∈ reconcile reg lines, d.id ∈ parsedIds lines := by
    intro d hd
    rw [reconcile_eval] at hd
    have h2 := (List.mem_filter.mp hd).2
    simpa using h2
  have hfix : ∀ d ∈ reconcile reg lines, applyLast lines d = d := by
    intro d hd
    rw [reconcile_eval] at hd
    have h1 := (List.mem_filter.mp hd).1
    rcases List.mem_append.mp h1 with h1 | h1
    · obtain ⟨d₀, _, rfl⟩ := List.mem_map.mp h1
      exact applyLast_applyLast lines d₀
    · obtain ⟨j', hj', rfl⟩ := List.mem_map.mp h1
      exact applyLast_devFor lines j' (mem_newIds lines _ hj').2
  have hkeys : ∀ j ∈ parsedIds lines, j ∈ (reconcile reg lines).map DeviceR.id := by
    intro j hj
    rw [reconcile_eval]
    by_cases hc : j ∈ reg.map DeviceR.id
    · obtain ⟨d₀, hd₀, hid⟩ := List.mem_map.mp hc
      refine List.mem_map.mpr ⟨applyLast lines d₀, ?_, by rw [applyLast_id_eq, hid]⟩
      refine List.mem_filter.mpr
        ⟨List.mem_append.mpr (.inl (List.mem_map.mpr ⟨d₀, hd₀, rfl⟩)), ?_⟩
      simp [applyLast_id_eq, hid, hj]
    · refine List.mem_map.mpr ⟨devFor lines j, ?_, devFor_id_eq lines j⟩
      refine List.mem_filter.mpr
        ⟨List.mem_append.mpr
          (.inr (List.mem_map.mpr ⟨j, mem_newIds_of_mem lines _ hj hc, rfl⟩)), ?_⟩
      simp [devFor_id_eq, hj]
  rw [reconcile_eval (reconcile reg lines) lines]
  have h1 : (reconcile reg lines).map (applyLast lines) = reconcile reg lines := by
    rw [List.map_congr_left hfix]
    exact List.map_id _
  have h2 : newIds ((reconcile reg lines).map DeviceR.id) lines = [] :=
    newIds_eq_nil lines _ (fun j hj => hkeys j hj)
  rw [h1, h2, List.map_nil, List.append_nil]
  refine List.filter_eq_self.mpr ?_
  intro d hd
  simpa using hRmem d hd

/-- Claim C6: with a fixed, unchanged scan listing, running `scan_devices`
twice in a row yields a registry identical to the one after the first run —
the second run adds no device, removes no device, and changes no field. -/
theorem scan_twice_idempotent (reg : List DeviceR) (out : String) :
    (scan_devices (scan_devices reg (.ok out)).1 (.ok out)).1 =
      (scan_devices reg (.ok out)).1 := by
  simp only [scan_devices]
  exact reconcile_idem reg _

/-! ## Alert Pipeline (`core/alerting.py`)

`AlertManager.__init__` assigns `alert_handlers` twice: first a per-level
dict of lists, then (line 33) a flat list, which is what every later method
sees.  The consumer loop `_process_alerts` dispatches each alert to all
handlers with a per-handler `try/except`, and never appends to
`alert_history`; `get_alert_history` filters that history and returns its
last `limit` entries.  `H` is the type of handler objects; a handler's
behaviour is an outcome oracle (`handle_alert` returns, or raises). -/

/-- The `alert_handlers` attribute: either the per-level dict of lists of the
first `__init__` assignment, or the flat list of the second. -/
inductive HandlersField (H : Type) where
  | perLevel (m : List (String × List H))
  | flat (hs : List H)
deriving DecidableEq

/-- The `AlertManager` attributes the claims depend on. -/
structure AlertManagerState (H : Type) where
  alert_levels : List (String × Nat)
  alert_handlers : HandlersField H
  alert_history : List Alert
  max_history : Nat
deriving DecidableEq

/-- `AlertManager.__init__` up to the reassignment: per-level handler dict. -/
def initAlertManagerPre (H : Type) : AlertManagerState H :=
  { alert_levels := [("info", 0), ("warning", 1), ("error", 2), ("critical", 3)],
    alert_handlers := .perLevel
      [("info", []), ("warning", []), ("error", []), ("critical", [])],
    alert_history := [],
    max_history := 1000 }

/-- `AlertManager.__init__` in full: the trailing `self.alert_handlers = []`
replaces the per-level dict with a flat (empty) list. -/
def initAlertManager (H : Type) : AlertManagerState H :=
  { initAlertManagerPre H with alert_handlers := .flat [] }

/-- `AlertManager.add_alert_handler(level, handler)`: guarded by
`if level in self.alert_levels`; the body indexes `self.alert_handlers` with
the level string, which raises `TypeError` when that attribute is a flat list
(list indices must be integers, not `str`), and appends when it is still the
per-level dict.  Outside the guard, the call silently does nothing. -/
def add_alert_handler (st : AlertManagerState H) (level : String) (handler : H) :
    Except PyErr (AlertManagerState H) :=
  if (st.alert_levels.map Prod.fst).contains level then
    match st.alert_handlers with
    | .flat _ => .error .typeError
    | .perLevel m =>
      let m2 := m.map (fun p => if p.1 = level then (p.1, p.2 ++ [handler]) else p)
      .ok { st with alert_handlers := .perLevel m2 }
  else .ok st

/-- The handler list the consumer loop iterates (`self.alert_handlers`; after
`__init__` this attribute is always the flat list built by
`register_handler`). -/
def currentHandlers (st : AlertManagerState H) : List H :=
  match st.alert_handlers with
  | .flat hs => hs
  | .perLevel _ => []

/-- The inner `for handler in self.alert_handlers` loop of `_process_alerts`
for one dequeued alert: every handler is invoked once, in order, and its
outcome (`handle_alert` returned, or raised and was caught and logged) is
recorded. -/
def dispatchAlert (handlers : List H) (hout : H → Alert → Except String Unit)
    (a : Alert) : List (H × Except String Unit) :=
  handlers.map (fun h => (h, hout h a))

/-- The `while True` body of `_process_alerts` over the queued alerts, in
order, threading the manager state through each iteration (the body reads
`self.alert_handlers` and touches nothing else of the state — in particular
it never appends to `self.alert_history`). -/
def processAlertsGo (hout : H → Alert → Except String Unit) :
    AlertManagerState H → List Alert →
    AlertManagerState H × List (Alert × List (H × Except String Unit))
  | st, [] => (st, [])
  | st, a :: rest =>
    let trace := dispatchAlert (currentHandlers st) hout a
    let r := processAlertsGo hout st rest
    (r.1, (a, trace) :: r.2)

/-- `AlertManager._process_alerts()` consuming a queue of alerts: final state
and the per-alert dispatch trace. -/
def process_alerts (st : AlertManagerState H) (hout : H → Alert → Except String Unit)
    (queue : List Alert) :
    AlertManagerState H × List (Alert × List (H × Except String Unit)) :=
  processAlertsGo hout st queue

/-- Python `lst[-limit:]` as used by `get_alert_history`: the last `limit`
elements (the whole list when `limit = 0`). -/
def pyTailSlice (l : List Alert) (limit : Nat) : List Alert :=
  if limit = 0 then l else l.drop (l.length - limit)

/-- `AlertManager.get_alert_history(level, device_id, limit)`: filter the
in-memory history by level then by device id, and return the last `limit`
entries. -/
def get_alert_history (st : AlertManagerState H) (level : Option String)
    (device_id : Option String) (limit : Nat) : List Alert :=
  pyTailSlice
    ((st.alert_history.filter (fun a =>
        match level with
        | none => true
        | some lv => a.level = lv)).filter (fun a =>
        match device_id with
        | none => true
        | some dv => a.device_id = some dv))
    limit

/-- Claim C9: on a fresh `AlertManager`, `add_alert_handler` raises
`TypeError` for each of the four known levels (the constructor reassigned
`alert_handlers` to a flat list, so indexing it with the level string fails)
and silently does nothing for any other level string, so no per-level handler
can ever be registered. -/
theorem add_alert_handler_typeerror_or_noop (H : Type) (level : String) (handler : H) :
    (level ∈ ["info", "warning", "error", "critical"] →
      add_alert_handler (initAlertManager H) level handler = .error .typeError) ∧
    (level ∉ ["info", "warning", "error", "critical"] →
      add_alert_handler (initAlertManager H) level handler = .ok (initAlertManager H)) := by
  constructor
  · intro h
    fin_cases h <;> rfl
  · intro h
    rw [add_alert_handler, if_neg]
    intro hc
    refine h ?_
    simpa [initAlertManager, initAlertManagerPre] using hc

/-- Witness for `add_alert_handler_typeerror_or_noop`: level `"info"` raises
`TypeError`, the unknown level `"debug"` is a silent no-op. -/
theorem add_alert_handler_typeerror_or_noop_witness :
    add_alert_handler (initAlertManager Unit) "info" () = .error .typeError ∧
    add_alert_handler (initAlertManager Unit) "debug" () = .ok (initAlertManager Unit) := by
  exact ⟨(add_alert_handler_typeerror_or_noop Unit "info" ()).1 (by decide),
    (add_alert_handler_typeerror_or_noop Unit "debug" ()).2 (by decide)⟩

/-- Claim C7 (code bug): the consumer loop never appends to `alert_history`,
so the history stays exactly as it was — empty from construction — no matter
how many alerts are processed, and `get_alert_history` returns `[]` for every
filter and limit, instead of the N most recent alerts. -/
theorem alert_history_never_appended (H : Type) (st : AlertManagerState H)
    (hout : H → Alert → Except String Unit) (queue : List Alert)
    (level device_id : Option String) (limit : Nat) :
    (process_alerts st hout queue).1.alert_history = st.alert_history ∧
    (process_alerts (initAlertManager H) hout queue).1.alert_history = [] ∧
    get_alert_history (process_alerts (initAlertManager H) hout queue).1
      level device_id limit = [] ∧
    (initAlertManager H).max_history = 1000 := by
  have hpres : ∀ (s : AlertManagerState H) (q : List Alert),
      (processAlertsGo hout s q).1 = s := by
    intro s q
    induction q with
    | nil => rfl
    | cons a rest ih => simp [processAlertsGo, ih]
  refine ⟨?_, ?_, ?_, rfl⟩
  · rw [process_alerts, hpres st queue]
  · rw [process_alerts, hpres _ queue]
    rfl
  · rw [get_alert_history, process_alerts, hpres _ queue]
    have hh : (initAlertManager H).alert_history = [] := rfl
    rw [hh, List.filter_nil, List.filter_nil, pyTailSlice]
    cases limit <;> simp

/-! ## Broadcast Pub-Sub (`core/websocket_manager.py`)

`_process_broadcasts` pops one message, looks up the target channel, copies
its subscriber set, attempts `send_text` to every subscriber in the copy (a
failing send is caught, logged, and the subscriber collected), and discards
the failed subscribers after the sweep; any error is caught by the outer
`except`, so the loop continues with the next message.  `C` is the type of
WebSocket connection objects; `send` is the outcome oracle of
`connection.send_text`. -/

/-- A queued broadcast: target channel plus its serialized payload (the
`json.dumps` text, opaque here). -/
structure BroadcastMsg where
  channel : String
  payload : String
deriving DecidableEq

/-- One iteration of `_process_broadcasts` for one dequeued message:
iterate a point-in-time copy of the channel's subscriber set, attempting
delivery to each subscriber; collect the failures and discard them from the
live set after the sweep.  Returns the new connection map and the attempt
trace. -/
def processBroadcast {C : Type} [DecidableEq C] (conns : List (String × List C))
    (send : C → BroadcastMsg → Except String Unit) (msg : BroadcastMsg) :
    List (String × List C) × List (C × Except String Unit) :=
  match (conns.find? (fun p => p.1 = msg.channel)).map Prod.snd with
  | none => (conns, [])
  | some subs =>
    let attempts := subs.map (fun c => (c, send c msg))
    let disconnected := (attempts.filter (fun p =>
      match p.2 with
      | .ok _ => false
      | .error _ => true)).map Prod.fst
    (conns.map (fun p =>
        if p.1 = msg.channel then (p.1, p.2.filter (fun c => ¬ c ∈ disconnected))
        else p),
      attempts)

/-- The `while True` loop of `_process_broadcasts` over the queued messages
in order. -/
def processBroadcastsGo {C : Type} [DecidableEq C]
    (send : C → BroadcastMsg → Except String Unit) :
    List (String × List C) → List BroadcastMsg →
    List (String × List C) × List (BroadcastMsg × List (C × Except String Unit))
  | conns, [] => (conns, [])
  | conns, msg :: rest =>
    let r1 := processBroadcast conns send msg
    let r2 := processBroadcastsGo send r1.1 rest
    (r2.1, (msg, r1.2) :: r2.2)

/-- Claim C8: in both consumer loops a failure of one handler/subscriber is
isolated: every queued alert is dispatched to every registered handler in
order regardless of the outcomes of any of them, the alert loop processes the
whole queue, the broadcast loop processes every queued message, and a
message's delivery is attempted to every subscriber of its channel no matter
which sends fail. -/
theorem consumer_loops_isolate_failures (H C : Type) [DecidableEq C] :
    (∀ (st : AlertManagerState H) (hout : H → Alert → Except String Unit)
        (queue : List Alert),
      (process_alerts st hout queue).2.map Prod.fst = queue ∧
      ∀ p ∈ (process_alerts st hout queue).2,
        p.2.map Prod.fst = currentHandlers st) ∧
    (∀ (conns : List (String × List C)) (send : C → BroadcastMsg → Except String Unit)
        (msgs : List BroadcastMsg),
      (processBroadcastsGo send conns msgs).2.map Prod.fst = msgs) ∧
    (∀ (conns : List (String × List C)) (send : C → BroadcastMsg → Except String Unit)
        (msg : BroadcastMsg) (subs : List C),
      (conns.find? (fun p => p.1 = msg.channel)).map Prod.snd = some subs →
      (processBroadcast conns send msg).2.map Prod.fst = subs) := by
  refine ⟨?_, ?_, ?_⟩
  · intro st hout queue
    induction queue with
    | nil => exact ⟨rfl, by intro p hp; cases hp⟩
    | cons a rest ih =>
      constructor
      · simp only [process_alerts, processAlertsGo, List.map_cons]
        rw [show (processAlertsGo hout st rest).2.map Prod.fst = rest from ih.1]
      · intro p hp
        simp only [process_alerts, processAlertsGo, List.mem_cons] at hp
        rcases hp with rfl | hp
        · simp only [dispatchAlert, List.map_map]
          exact List.map_id _
        · exact ih.2 p hp
  · intro conns send msgs
    induction msgs generalizing conns with
    | nil => rfl
    | cons msg rest ih =>
      simp only [processBroadcastsGo, List.map_cons]
      rw [ih]
  · intro conns send msg subs hfind
    simp only [processBroadcast, hfind, List.map_map]
    exact List.map_id _

/-- Witness for `consumer_loops_isolate_failures`: with subscribers `0` and
`1` on channel `"alerts"` and subscriber `0` failing, delivery is still
attempted to both. -/
theorem consumer_loops_isolate_failures_witness :
    (processBroadcast [("alerts", [0, 1])]
      (fun c _ => if c = 0 then .error "send failed" else .ok ())
      ⟨"alerts", "payload"⟩).2.map Prod.fst = [0, 1] := by
  exact (consumer_loops_isolate_failures Unit Nat).2.2 [("alerts", [0, 1])]
    (fun c _ => if c = 0 then .error "send failed" else .ok ())
    ⟨"alerts", "payload"⟩ [0, 1] (by rfl)

end Drono
